import Mathlib

/-!
Verification of the GoogleBooks aggregator (`main.go` and the extended
variant): the data model, the completeness validator
`hasEmptyInformation`, the fetch-filter-accumulate loop `getBooks`, and
the `/books` request handler, embedded shallowly.  Machine integers are
modelled as unbounded `Int` (the Go values involved stay far from the
64-bit bounds on every input considered here).  The pagination loop,
whose number of iterations is not bounded by its inputs, is embedded
with an explicit fuel parameter bounding the number of upstream calls:
a result of `none` means the loop makes more upstream calls than the
fuel allows (in particular, divergence is `none` for every fuel).
-/

namespace GoogleBooks


/-- Constant `maxLimit = 50` from `main.go`. -/
def maxLimit : Int := 50

/-- The anonymous `Images` struct nested in `BookInformation`:
`Small` (`smallThumbnail`) and `Normal` (`thumbnail`). -/
structure BookImages where
  small : String
  normal : String
  deriving DecidableEq, Repr

/-- Record type `BookInformation` from `main.go` (baseline, no categories):
title, description, authors, page count (Go `int`), thumbnail URLs. -/
structure BookInformation where
  title : String
  description : String
  authors : List String
  pages : Int
  images : BookImages
  deriving DecidableEq, Repr

/-- Type `Book` from `main.go`: a wrapper around `BookInformation`. -/
structure Book where
  bookInformation : BookInformation
  deriving DecidableEq, Repr

/-- Record type `BookInformation` from the extended variant, with the
`Categories` field. -/
structure BookInformationExt where
  title : String
  description : String
  authors : List String
  categories : List String
  pages : Int
  images : BookImages
  deriving DecidableEq, Repr

/-- Validator `hasEmptyInformation` from `main.go`:
`Pages == 0 || Description == "" || len(Authors) == 0 ||
 Images.Normal == "" || Images.Small == "" || Title == ""`. -/
def hasEmptyInformation (b : BookInformation) : Bool :=
  b.pages == 0 ||
  b.description == "" ||
  b.authors.isEmpty ||
  b.images.normal == "" ||
  b.images.small == "" ||
  b.title == ""

/-- Validator `hasEmptyInformation` from the extended variant, which also
requires a non-empty category list. -/
def hasEmptyInformationExt (b : BookInformationExt) : Bool :=
  b.pages == 0 ||
  b.description == "" ||
  b.authors.isEmpty ||
  b.images.normal == "" ||
  b.images.small == "" ||
  b.title == "" ||
  b.categories.isEmpty

/-- The two failure modes of one upstream call in `getBooks`:
`http.Get` fails (transport) or the JSON decode of the body fails. -/
inductive GetBooksError where
  | transport
  | decode
  deriving DecidableEq, Repr

/-- The outcome of one upstream call: an error, or a page of zero or
more candidate records (`response.Items`, each carrying a
`BookInformation`). -/
inductive UpstreamResult where
  | err (e : GetBooksError)
  | page (items : List BookInformation)
  deriving DecidableEq, Repr

/-- The inner `for _, item := range response.Items` loop of `getBooks`:
stop scanning once `len(books) >= limit`, skip items with
`hasEmptyInformation`, append the rest in arrival order. -/
def processPage (limit : Int) : List BookInformation → List Book → List Book
  | [], books => books
  | item :: rest, books =>
    if limit ≤ (books.length : Int) then books
    else if hasEmptyInformation item then processPage limit rest books
    else processPage limit rest (books ++ [Book.mk item])

/-- The outer `for len(books) < limit` loop of `getBooks`.  The
upstream is a trace `u : Nat → UpstreamResult` giving the outcome of
each successive call (the Go code sends no cursor, so a call is
determined only by its position in the trace).  The result carries the
Go pair `([]Book, error)` together with the number of upstream calls
made; `none` means the loop needs more than `fuel` upstream calls. -/
def getBooksLoop (limit : Int) : Nat → (Nat → UpstreamResult) → List Book →
    Option ((List Book × Option GetBooksError) × Nat)
  | 0, _, books =>
    if (books.length : Int) < limit then none
    else some ((books, none), 0)
  | fuel + 1, u, books =>
    if (books.length : Int) < limit then
      match u 0 with
      | UpstreamResult.err e => some (([], some e), 1)
      | UpstreamResult.page items =>
        if items.isEmpty then
          if books.isEmpty then some (([], none), 1)
          else some ((books, none), 1)
        else
          match getBooksLoop limit fuel (fun n => u (n + 1))
              (processPage limit items books) with
          | none => none
          | some (r, c) => some (r, c + 1)
    else some ((books, none), 0)

/-- Function `getBooks` from `main.go`: clamp the limit to `maxLimit`, return
immediately on a zero limit, otherwise run the loop starting from an
empty buffer.  The query string only feeds the upstream URL, so it does
not influence the abstracted upstream trace. -/
def getBooks (_query : String) (limit : Int) (u : Nat → UpstreamResult)
    (fuel : Nat) : Option ((List Book × Option GetBooksError) × Nat) :=
  let l : Int := if limit > maxLimit then maxLimit else limit
  if l = 0 then some (([], none), 0)
  else getBooksLoop l fuel u []

/-- Digit-string parsing used by `strconv.Atoi`: at least one character
and all characters decimal digits; 64-bit range errors are not
modelled (no claim exercises them). -/
def parseDigits : List Char → Option Nat
  | [] => none
  | c :: rest =>
    if c.isDigit then
      match rest with
      | [] => some (c.toNat - '0'.toNat)
      | _ :: _ =>
        match parseDigits rest with
        | none => none
        | some n => some ((c.toNat - '0'.toNat) * 10 ^ rest.length + n)
    else none

/-- Go's `strconv.Atoi` as used by the handler: optional leading `+` or `-`
followed by one or more decimal digits; anything else is an error. -/
def atoi (s : String) : Option Int :=
  match s.data with
  | '-' :: rest => (parseDigits rest).map (fun n => -(n : Int))
  | '+' :: rest => (parseDigits rest).map (fun n => (n : Int))
  | l => (parseDigits l).map (fun n => (n : Int))

/-- The JSON body written by the `/books` handler on success:
`{query, total, books}` with `Total: len(books)`. -/
structure BooksOkBody where
  query : String
  total : Nat
  books : List Book
  deriving DecidableEq, Repr

/-- The three observable responses of the `/books` handler:
400 with a message, 500 (from `getBooks` failing), or 200 with the
JSON body. -/
inductive HandlerResponse where
  | badRequest (msg : String)
  | internalError
  | ok (body : BooksOkBody)
  deriving DecidableEq, Repr

/-- HTTP status code of each handler response. -/
def HandlerResponse.status : HandlerResponse → Nat
  | badRequest _ => 400
  | internalError => 500
  | ok _ => 200

/-- The `/books` handler from `main.go`.  `queryParam` and `limitParam`
are the values of `r.URL.Query().Get(...)` (Go returns `""` for a
missing parameter, so missing and empty coincide).  The result pairs
the response with the number of upstream calls made; `none` again
means `getBooks` needed more than `fuel` upstream calls. -/
def booksHandler (queryParam limitParam : String) (u : Nat → UpstreamResult)
    (fuel : Nat) : Option (HandlerResponse × Nat) :=
  if queryParam = "" then some (HandlerResponse.badRequest "query is required", 0)
  else if limitParam = "" then some (HandlerResponse.badRequest "limit is required", 0)
  else
    match atoi limitParam with
    | none => some (HandlerResponse.badRequest "processing limit", 0)
    | some l =>
      if l < 0 then
        some (HandlerResponse.badRequest "limit cant be a negative number", 0)
      else
        match getBooks queryParam l u fuel with
        | none => none
        | some ((_, some _), calls) => some (HandlerResponse.internalError, calls)
        | some ((books, none), calls) =>
          some (HandlerResponse.ok (BooksOkBody.mk queryParam books.length books), calls)

/-- The complete candidates of a sequence of records, in arrival order,
wrapped as `Book`s: the expected content of the accumulation buffer. -/
def completeBooks (l : List BookInformation) : List Book :=
  (l.filter fun b => !hasEmptyInformation b).map Book.mk

/-- A candidate record with every field populated: complete for the
baseline validator. -/
def completeRecord : BookInformation :=
  BookInformation.mk "Dune" "A science fiction novel" ["Frank Herbert"] 412
    (BookImages.mk "small-url" "normal-url")

/-- A candidate record with an empty description: incomplete. -/
def incompleteRecord : BookInformation :=
  BookInformation.mk "Dune" "" ["Frank Herbert"] 412
    (BookImages.mk "small-url" "normal-url")

/-- A candidate record with a negative page count and every other field
populated. -/
def negativePagesRecord : BookInformation :=
  BookInformation.mk "Dune" "A science fiction novel" ["Frank Herbert"] (-1)
    (BookImages.mk "small-url" "normal-url")

/-- Upstream trace delivering a fixed finite list of pages (and empty
pages after it is exhausted). -/
def pagesUpstream (ps : List (List BookInformation)) : Nat → UpstreamResult :=
  fun k => UpstreamResult.page (ps.getD k [])

/-- An upstream whose first response is an empty page followed by one
page of five complete records. -/
def emptyFirstPages : List (List BookInformation) :=
  [[], [completeRecord, completeRecord, completeRecord, completeRecord,
    completeRecord]]

/-- Pages used by the witness of the first-L theorem: two complete
records separated by an incomplete one, across two pages. -/
def witnessPages : List (List BookInformation) :=
  [[completeRecord, incompleteRecord], [completeRecord]]

/-- An upstream that always fails with a transport error. -/
def transportErrUpstream : Nat → UpstreamResult :=
  fun _ => UpstreamResult.err GetBooksError.transport

/-- An upstream that always returns an empty page. -/
def emptyPageUpstream : Nat → UpstreamResult :=
  fun _ => UpstreamResult.page []

lemma completeBooks_append (l₁ l₂ : List BookInformation) :
    completeBooks (l₁ ++ l₂) = completeBooks l₁ ++ completeBooks l₂ := by
  simp [completeBooks]

lemma processPage_eq (L : Int) (items : List BookInformation) :
    ∀ acc : List Book,
      processPage L items acc
        = acc ++ (completeBooks items).take (L.toNat - acc.length) := by
  induction items with
  | nil => intro acc; simp [processPage, completeBooks]
  | cons item rest ih =>
    intro acc
    by_cases hcap : L ≤ (acc.length : Int)
    · have h0 : L.toNat - acc.length = 0 := by omega
      simp [processPage, hcap, h0]
    · push_neg at hcap
      have hpos : acc.length < L.toNat := by omega
      by_cases hskip : hasEmptyInformation item
      · have : completeBooks (item :: rest) = completeBooks rest := by
          simp [completeBooks, hskip]
        rw [processPage, if_neg (by omega), if_pos hskip, ih, this]
      · have hc : completeBooks (item :: rest)
            = Book.mk item :: completeBooks rest := by
          simp [completeBooks, hskip]
        rw [processPage, if_neg (by omega), if_neg hskip, ih, hc]
        have hsub : L.toNat - acc.length = (L.toNat - (acc.length + 1)) + 1 := by
          omega
        rw [hsub, List.take_succ_cons]
        simp

lemma getBooksLoop_stop (L : Int) (fuel : Nat) (u : Nat → UpstreamResult)
    (acc : List Book) (h : ¬ (acc.length : Int) < L) :
    getBooksLoop L fuel u acc = some ((acc, none), 0) := by
  cases fuel <;> simp [getBooksLoop, h]

lemma getBooksLoop_err (L : Int) (fuel : Nat) (u : Nat → UpstreamResult)
    (acc : List Book) (e : GetBooksError)
    (h : (acc.length : Int) < L) (hu : u 0 = UpstreamResult.err e) :
    getBooksLoop L (fuel + 1) u acc = some (([], some e), 1) := by
  simp [getBooksLoop, h, hu]

lemma getBooksLoop_emptyPage (L : Int) (fuel : Nat) (u : Nat → UpstreamResult)
    (acc : List Book)
    (h : (acc.length : Int) < L) (hu : u 0 = UpstreamResult.page []) :
    getBooksLoop L (fuel + 1) u acc = some ((acc, none), 1) := by
  rcases acc with _ | ⟨b, acc⟩
  · simp only [List.length_nil, Int.ofNat_zero, Nat.cast_zero] at h
    simp [getBooksLoop, hu, h]
  · simp only [List.length_cons] at h
    push_cast at h
    simp [getBooksLoop, h, hu]

lemma getBooksLoop_cons (L : Int) (fuel : Nat) (u : Nat → UpstreamResult)
    (acc : List Book) (items : List BookInformation)
    (h : (acc.length : Int) < L) (hu : u 0 = UpstreamResult.page items)
    (hne : items ≠ []) :
    getBooksLoop L (fuel + 1) u acc
      = match getBooksLoop L fuel (fun n => u (n + 1))
            (processPage L items acc) with
        | none => none
        | some (r, c) => some (r, c + 1) := by
  simp [getBooksLoop, h, hu, hne]

lemma getBooksLoop_pages (L : Int) :
    ∀ (ps : List (List BookInformation)) (u : Nat → UpstreamResult)
      (acc : List Book),
      (∀ k (hk : k < ps.length), u k = UpstreamResult.page (ps.get ⟨k, hk⟩)) →
      (∀ p ∈ ps, p ≠ []) →
      (acc.length : Int) < L →
      L ≤ (acc.length : Int) + ((completeBooks ps.flatten).length : Int) →
      ∃ c, getBooksLoop L ps.length u acc
        = some ((acc ++ (completeBooks ps.flatten).take (L.toNat - acc.length),
                 none), c) := by
  intro ps
  induction ps with
  | nil =>
    intro u acc _ _ hlt henough
    simp [completeBooks] at henough
    omega
  | cons p rest ih =>
    intro u acc hu hne hlt henough
    have hu0 : u 0 = UpstreamResult.page p := hu 0 (by simp)
    have hpne : p ≠ [] := hne p (by simp)
    have hflat : completeBooks ((p :: rest).flatten)
        = completeBooks p ++ completeBooks rest.flatten := by
      rw [List.flatten_cons, completeBooks_append]
    have haL : acc.length < L.toNat := by omega
    have hLnn : (L.toNat : Int) = L := by omega
    rw [show (p :: rest).length = rest.length + 1 from rfl,
      getBooksLoop_cons L rest.length u acc p hlt hu0 hpne,
      processPage_eq L p acc]
    set fp := completeBooks p with hfp
    set fr := completeBooks rest.flatten with hfr
    have hlen : (acc ++ fp.take (L.toNat - acc.length)).length
        = acc.length + min fp.length (L.toNat - acc.length) := by
      simp [Nat.min_comm]
    by_cases hcap : L.toNat - acc.length ≤ fp.length
    · -- the first page already fills the buffer to the limit
      have hstop : ¬ ((acc ++ fp.take (L.toNat - acc.length)).length : Int) < L := by
        rw [hlen]
        omega
      rw [getBooksLoop_stop L rest.length _ _ hstop]
      refine ⟨1, ?_⟩
      simp only [hflat]
      rw [List.take_append_eq_append_take]
      have : L.toNat - acc.length - fp.length = 0 := by omega
      simp [this]
    · -- the whole first page is absorbed and the loop continues
      push_neg at hcap
      have htake : fp.take (L.toNat - acc.length) = fp :=
        List.take_of_length_le (by omega)
      rw [htake]
      have hlt' : (((acc ++ fp).length : Nat) : Int) < L := by
        simp only [List.length_append]
        omega
      have henough' : L ≤ ((acc ++ fp).length : Int) + (fr.length : Int) := by
        simp only [List.length_append]
        rw [hflat] at henough
        simp only [List.length_append] at henough
        push_cast at henough ⊢
        omega
      have hu' : ∀ k (hk : k < rest.length),
          (fun n => u (n + 1)) k = UpstreamResult.page (rest.get ⟨k, hk⟩) := by
        intro k hk
        exact hu (k + 1) (by simpa using Nat.succ_lt_succ hk)
      obtain ⟨c, hc⟩ := ih (fun n => u (n + 1)) (acc ++ fp) hu' 
        (fun q hq => hne q (by simp [hq])) hlt' henough'
      rw [hc]
      refine ⟨c + 1, ?_⟩
      simp only [hflat]
      rw [List.take_append_eq_append_take, htake]
      have : L.toNat - (acc ++ fp).length = L.toNat - acc.length - fp.length := by
        simp only [List.length_append]
        omega
      rw [this]
      simp

lemma getBooksLoop_length_le (L : Int) :
    ∀ (fuel : Nat) (u : Nat → UpstreamResult) (acc books : List Book)
      (err : Option GetBooksError) (c : Nat),
      getBooksLoop L fuel u acc = some ((books, err), c) →
      books.length ≤ max acc.length L.toNat := by
  intro fuel
  induction fuel with
  | zero =>
    intro u acc books err c h
    rw [getBooksLoop] at h
    by_cases hlt : (acc.length : Int) < L
    · simp [hlt] at h
    · simp [hlt] at h
      obtain ⟨⟨hb, _⟩, _⟩ := h
      subst hb
      omega
  | succ fuel ih =>
    intro u acc books err c h
    by_cases hlt : (acc.length : Int) < L
    · rcases hu : u 0 with e | items
      · rw [getBooksLoop_err L fuel u acc e hlt hu] at h
        simp at h
        simp [h.1.1]
      · rcases items with _ | ⟨i, its⟩
        · rw [getBooksLoop_emptyPage L fuel u acc hlt hu] at h
          simp at h
          simp [← h.1.1]
        · rw [getBooksLoop_cons L fuel u acc (i :: its) hlt hu (by simp)] at h
          rcases hrec : getBooksLoop L fuel (fun n => u (n + 1))
              (processPage L (i :: its) acc) with _ | ⟨⟨books', err'⟩, c'⟩
          · rw [hrec] at h; simp at h
          · rw [hrec] at h
            simp at h
            obtain ⟨⟨hb, he⟩, hc⟩ := h
            subst hb
            have := ih (fun n => u (n + 1)) (processPage L (i :: its) acc)
              books' err' c' hrec
            rw [processPage_eq] at this
            have hplen : (acc ++ (completeBooks (i :: its)).take
                (L.toNat - acc.length)).length ≤ max acc.length L.toNat := by
              simp only [List.length_append]
              have := List.length_take_le (L.toNat - acc.length)
                (completeBooks (i :: its))
              omega
            omega
    · rw [getBooksLoop_stop L (fuel + 1) u acc hlt] at h
      simp at h
      obtain ⟨⟨hb, _⟩, _⟩ := h
      subst hb
      omega

lemma getBooksLoop_all_complete (L : Int) :
    ∀ (fuel : Nat) (u : Nat → UpstreamResult) (acc books : List Book)
      (err : Option GetBooksError) (c : Nat),
      (∀ b ∈ acc, hasEmptyInformation b.bookInformation = false) →
      getBooksLoop L fuel u acc = some ((books, err), c) →
      ∀ b ∈ books, hasEmptyInformation b.bookInformation = false := by
  intro fuel
  induction fuel with
  | zero =>
    intro u acc books err c hacc h
    rw [getBooksLoop] at h
    by_cases hlt : (acc.length : Int) < L
    · simp [hlt] at h
    · simp [hlt] at h
      obtain ⟨⟨hb, _⟩, _⟩ := h
      subst hb
      exact hacc
  | succ fuel ih =>
    intro u acc books err c hacc h
    by_cases hlt : (acc.length : Int) < L
    · rcases hu : u 0 with e | items
      · rw [getBooksLoop_err L fuel u acc e hlt hu] at h
        simp at h
        simp [h.1.1]
      · rcases items with _ | ⟨i, its⟩
        · rw [getBooksLoop_emptyPage L fuel u acc hlt hu] at h
          simp at h
          obtain ⟨⟨hb, _⟩, _⟩ := h
          subst hb
          exact hacc
        · rw [getBooksLoop_cons L fuel u acc (i :: its) hlt hu (by simp)] at h
          rcases hrec : getBooksLoop L fuel (fun n => u (n + 1))
              (processPage L (i :: its) acc) with _ | ⟨⟨books', err'⟩, c'⟩
          · rw [hrec] at h; simp at h
          · rw [hrec] at h
            simp at h
            obtain ⟨⟨hb, _⟩, _⟩ := h
            subst hb
            refine ih (fun n => u (n + 1)) _ books' err' c' ?_ hrec
            intro b hb
            rw [processPage_eq] at hb
            rcases List.mem_append.mp hb with hmem | hmem
            · exact hacc b hmem
            · have := List.mem_of_mem_take hmem
              simp only [completeBooks, List.mem_map] at this
              obtain ⟨bi, hbi, rfl⟩ := this
              have := List.mem_filter.mp hbi
              simpa using this.2
    · rw [getBooksLoop_stop L (fuel + 1) u acc hlt] at h
      simp at h
      obtain ⟨⟨hb, _⟩, _⟩ := h
      subst hb
      exact hacc

lemma getBooksLoop_incomplete_diverges :
    ∀ fuel : Nat,
      getBooksLoop 1 fuel (fun _ => UpstreamResult.page [incompleteRecord]) []
        = none := by
  intro fuel
  induction fuel with
  | zero => decide
  | succ fuel ih =>
    rw [getBooksLoop_cons 1 fuel _ [] [incompleteRecord] (by decide) rfl
      (by decide)]
    have hp : processPage 1 [incompleteRecord] [] = [] := by decide
    rw [hp, ih]

lemma getBooks_all_complete (q : String) (limit : Int)
    (u : Nat → UpstreamResult) (fuel : Nat) (books : List Book)
    (err : Option GetBooksError) (c : Nat)
    (h : getBooks q limit u fuel = some ((books, err), c)) :
    ∀ b ∈ books, hasEmptyInformation b.bookInformation = false := by
  simp only [getBooks] at h
  by_cases h0 : (if limit > maxLimit then maxLimit else limit) = 0
  · rw [if_pos h0] at h
    simp only [Option.some.injEq, Prod.mk.injEq] at h
    obtain ⟨⟨hb, _⟩, _⟩ := h
    simp [← hb]
  · rw [if_neg h0] at h
    exact getBooksLoop_all_complete _ fuel u [] books err c (by simp) h

/-- C1, counterexample: with an empty first page followed by a page of
five complete records, the concatenated upstream pages contain at
least 3 complete records, yet `getBooks` with limit 3 returns the empty
list (total 0) rather than the first 3 complete candidates. -/
theorem getBooks_prefix_claim_cex :
    3 ≤ (completeBooks emptyFirstPages.flatten).length ∧
    getBooks "dune" 3 (pagesUpstream emptyFirstPages) emptyFirstPages.length
      = some (([], none), 1) ∧
    (completeBooks emptyFirstPages.flatten).take 3 ≠ [] := by
  refine ⟨by decide, by decide, by decide⟩

/-- C1 (amended): for every query and every positive clamped limit `L`,
when the upstream calls deliver non-empty pages whose concatenation
contains at least `L` complete records, `getBooks` returns exactly the
first `L` complete candidates in upstream arrival order — skipping
incomplete candidates wherever they occur, never exceeding `L` and
never reordering records. -/
theorem getBooks_returns_first_limit_complete (q : String) (L : Int)
    (u : Nat → UpstreamResult) (ps : List (List BookInformation))
    (hL0 : 0 < L) (hLmax : L ≤ maxLimit)
    (hu : ∀ k (hk : k < ps.length), u k = UpstreamResult.page (ps.get ⟨k, hk⟩))
    (hne : ∀ p ∈ ps, p ≠ [])
    (henough : L ≤ ((completeBooks ps.flatten).length : Int)) :
    ∃ c, getBooks q L u ps.length
      = some (((completeBooks ps.flatten).take L.toNat, none), c) := by
  obtain ⟨c, hc⟩ := getBooksLoop_pages L ps u [] hu hne (by simpa using hL0)
    (by simpa using henough)
  refine ⟨c, ?_⟩
  have h1 : ¬ L > maxLimit := by omega
  have h2 : ¬ ((L : Int) = 0) := by omega
  simp only [getBooks, if_neg h1, if_neg h2]
  simpa using hc

/-- Witness for C1's theorem at concrete pages and limit 2. -/
theorem getBooks_returns_first_limit_complete_witness :
    ∃ c, getBooks "dune" 2 (pagesUpstream witnessPages) witnessPages.length
      = some (((completeBooks witnessPages.flatten).take (2 : Int).toNat,
          none), c) :=
  getBooks_returns_first_limit_complete "dune" 2 (pagesUpstream witnessPages)
    witnessPages (by decide) (by decide) (by decide) (by decide) (by decide)

/-- C2, counterexample: a record whose page count is negative (and all
other fields populated) is accepted by `hasEmptyInformation` as
complete, yet its page count is not strictly greater than 0. -/
theorem hasEmptyInformation_positive_pages_cex :
    hasEmptyInformation negativePagesRecord = false ∧
    ¬ (0 < negativePagesRecord.pages) := by
  refine ⟨by decide, by decide⟩

/-- C2 (amended): a record is complete (`hasEmptyInformation` is false)
iff title, description, author list and both thumbnail URLs are
non-empty and the page count is nonzero — not necessarily positive —
and, in the extended variant, the category list is also non-empty. -/
theorem hasEmptyInformation_false_iff (b : BookInformation)
    (be : BookInformationExt) :
    (hasEmptyInformation b = false ↔
      (b.title ≠ "" ∧ b.description ≠ "" ∧ b.authors ≠ [] ∧ b.pages ≠ 0 ∧
       b.images.small ≠ "" ∧ b.images.normal ≠ "")) ∧
    (hasEmptyInformationExt be = false ↔
      (be.title ≠ "" ∧ be.description ≠ "" ∧ be.authors ≠ [] ∧
       be.categories ≠ [] ∧ be.pages ≠ 0 ∧
       be.images.small ≠ "" ∧ be.images.normal ≠ "")) := by
  constructor <;>
  · simp only [hasEmptyInformation, hasEmptyInformationExt,
      Bool.or_eq_false_iff, beq_eq_false_iff_ne, ne_eq,
      List.isEmpty_eq_false, List.isEmpty_iff]
    tauto

/-- C3: on an upstream that on every call returns the same non-empty
page containing no complete record, `getBooks` with limit 1 never
terminates — the fuel-indexed loop returns `none` for every fuel
bound.  The spec requires termination here, so this is a divergence of
the code from the spec. -/
theorem getBooks_incomplete_page_diverges (q : String) (fuel : Nat) :
    getBooks q 1 (fun _ => UpstreamResult.page [incompleteRecord]) fuel
      = none := by
  simp only [getBooks]
  rw [if_neg (by decide), if_neg (by decide)]
  exact getBooksLoop_incomplete_diverges fuel

/-- C4: `getBooks` behaves exactly as if called with the effective
limit `min requested maxLimit`, and any successfully returned book
list has at most 50 records. -/
theorem getBooks_effective_limit (q : String) (limit : Int)
    (u : Nat → UpstreamResult) (fuel : Nat) (books : List Book) (c : Nat)
    (h : getBooks q limit u fuel = some ((books, none), c)) :
    getBooks q limit u fuel = getBooks q (min limit maxLimit) u fuel ∧
    books.length ≤ 50 := by
  have hclamp : (if limit > maxLimit then maxLimit else limit)
      = min limit maxLimit := by
    split_ifs <;> omega
  have hclamp2 : (if min limit maxLimit > maxLimit then maxLimit
      else min limit maxLimit) = min limit maxLimit := by
    split_ifs <;> omega
  constructor
  · simp only [getBooks, hclamp, hclamp2]
  · simp only [getBooks, hclamp] at h
    by_cases h0 : min limit maxLimit = 0
    · rw [if_pos h0] at h
      simp only [Option.some.injEq, Prod.mk.injEq] at h
      obtain ⟨⟨hb, _⟩, _⟩ := h
      simp [← hb]
    · rw [if_neg h0] at h
      have := getBooksLoop_length_le (min limit maxLimit) fuel u [] books
        none c h
      have hmax : (min limit maxLimit).toNat ≤ 50 := by
        have : maxLimit = 50 := rfl
        omega
      simpa [hmax] using this.trans (by simp [hmax])

/-- Witness for C4's theorem: requested limit 60 against one complete
record followed by upstream exhaustion. -/
theorem getBooks_effective_limit_witness :
    getBooks "dune" 60 (pagesUpstream [[completeRecord], []]) 2
      = getBooks "dune" (min 60 maxLimit)
          (pagesUpstream [[completeRecord], []]) 2 ∧
    [Book.mk completeRecord].length ≤ 50 :=
  getBooks_effective_limit "dune" 60 (pagesUpstream [[completeRecord], []]) 2
    [Book.mk completeRecord] 2 (by decide)

/-- C5: whenever the upstream call made by the loop returns a page of
zero candidates, the loop terminates normally with no error, returning
exactly the records accumulated so far (the empty result set when the
buffer is still empty); in particular a first empty page makes
`getBooks` return the empty result set. -/
theorem getBooks_empty_page_stops (q : String) (L : Int)
    (u : Nat → UpstreamResult) (fuel : Nat) (acc : List Book)
    (hu : u 0 = UpstreamResult.page []) :
    ((acc.length : Int) < L →
      getBooksLoop L (fuel + 1) u acc = some ((acc, none), 1)) ∧
    (0 < L → getBooks q L u (fuel + 1) = some (([], none), 1)) := by
  constructor
  · intro hlt
    exact getBooksLoop_emptyPage L fuel u acc hlt hu
  · intro hL
    have hm : maxLimit = 50 := rfl
    have h2 : ¬ ((if L > maxLimit then maxLimit else L) = 0) := by
      split_ifs <;> omega
    have hlt : ((([] : List Book).length : Int)
        < if L > maxLimit then maxLimit else L) := by
      show (0 : Int) < _
      split_ifs <;> omega
    simp only [getBooks, if_neg h2]
    exact getBooksLoop_emptyPage _ fuel u [] hlt hu

/-- Witness for C5's theorem: an upstream returning only empty pages,
with one record already accumulated resp. a fresh `getBooks` run. -/
theorem getBooks_empty_page_stops_witness :
    getBooksLoop 3 1 emptyPageUpstream [Book.mk completeRecord]
      = some (([Book.mk completeRecord], none), 1) ∧
    getBooks "dune" 3 emptyPageUpstream 1 = some (([], none), 1) :=
  ⟨(getBooks_empty_page_stops "dune" 3 emptyPageUpstream 0
      [Book.mk completeRecord] rfl).1 (by decide),
   (getBooks_empty_page_stops "dune" 3 emptyPageUpstream 0 [] rfl).2
      (by decide)⟩

/-- C6: when the upstream call made by the loop fails (transport or
decode), the loop aborts immediately: the error is propagated, the
book list returned alongside it is empty, and no further upstream call
is made (exactly one call, the failing one, is counted); in particular
a failing first call makes the whole `getBooks` run fail this way. -/
theorem getBooks_error_aborts (q : String) (L : Int)
    (u : Nat → UpstreamResult) (fuel : Nat) (acc : List Book)
    (e : GetBooksError) (hu : u 0 = UpstreamResult.err e) :
    ((acc.length : Int) < L →
      getBooksLoop L (fuel + 1) u acc = some (([], some e), 1)) ∧
    (0 < L → getBooks q L u (fuel + 1) = some (([], some e), 1)) := by
  constructor
  · intro hlt
    exact getBooksLoop_err L fuel u acc e hlt hu
  · intro hL
    have hm : maxLimit = 50 := rfl
    have h2 : ¬ ((if L > maxLimit then maxLimit else L) = 0) := by
      split_ifs <;> omega
    have hlt : ((([] : List Book).length : Int)
        < if L > maxLimit then maxLimit else L) := by
      show (0 : Int) < _
      split_ifs <;> omega
    simp only [getBooks, if_neg h2]
    exact getBooksLoop_err _ fuel u [] e hlt hu

/-- Witness for C6's theorem: an upstream failing with a transport
error on every call. -/
theorem getBooks_error_aborts_witness :
    getBooksLoop 3 1 transportErrUpstream [Book.mk completeRecord]
      = some (([], some GetBooksError.transport), 1) ∧
    getBooks "dune" 3 transportErrUpstream 1
      = some (([], some GetBooksError.transport), 1) :=
  ⟨(getBooks_error_aborts "dune" 3 transportErrUpstream 0
      [Book.mk completeRecord] GetBooksError.transport rfl).1 (by decide),
   (getBooks_error_aborts "dune" 3 transportErrUpstream 0 []
      GetBooksError.transport rfl).2 (by decide)⟩

/-- C7: for every query, upstream and fuel, calling `getBooks` with
limit 0 returns the empty result set with no error and makes zero
upstream calls. -/
theorem getBooks_zero_limit (q : String) (u : Nat → UpstreamResult)
    (fuel : Nat) :
    getBooks q 0 u fuel = some (([], none), 0) := by
  simp [getBooks, maxLimit]

/-- C8, counterexample: a successful `/books` run (200 response) can
return a record whose page count is negative, so not every returned
record satisfies a completeness predicate demanding a page count
strictly greater than 0. -/
theorem booksHandler_ok_positive_pages_cex :
    booksHandler "dune" "1" (pagesUpstream [[negativePagesRecord]]) 1
      = some (HandlerResponse.ok
          (BooksOkBody.mk "dune" 1 [Book.mk negativePagesRecord]), 1) ∧
    ¬ (0 < (Book.mk negativePagesRecord).bookInformation.pages) := by
  refine ⟨by decide, by decide⟩

/-- C8 (amended): every 200 response of the `/books` handler reports a total
equal to the length of its book list, and every record in that list is
complete. -/
theorem booksHandler_ok_invariants (qp lp : String)
    (u : Nat → UpstreamResult) (fuel : Nat) (body : BooksOkBody)
    (calls : Nat)
    (h : booksHandler qp lp u fuel = some (HandlerResponse.ok body, calls)) :
    body.total = body.books.length ∧
    ∀ b ∈ body.books, hasEmptyInformation b.bookInformation = false := by
  simp only [booksHandler] at h
  by_cases hq : qp = ""
  · simp [hq] at h
  · rw [if_neg hq] at h
    by_cases hl : lp = ""
    · simp [hl] at h
    · rw [if_neg hl] at h
      rcases ha : atoi lp with _ | l
      · rw [ha] at h
        simp at h
      · rw [ha] at h
        dsimp only at h
        by_cases hneg : l < 0
        · rw [if_pos hneg] at h
          simp at h
        · rw [if_neg hneg] at h
          rcases hg : getBooks qp l u fuel with _ | ⟨⟨books, err⟩, calls'⟩
          · rw [hg] at h
            simp at h
          · rw [hg] at h
            rcases err with _ | e
            · simp only [Option.some.injEq, Prod.mk.injEq,
                HandlerResponse.ok.injEq] at h
              obtain ⟨hbody, _⟩ := h
              subst hbody
              exact ⟨rfl, getBooks_all_complete qp l u fuel books none
                calls' hg⟩
            · simp at h

/-- Witness for C8's theorem: a valid request answered from two
single-record pages. -/
theorem booksHandler_ok_invariants_witness :
    (BooksOkBody.mk "dune" 2 [Book.mk completeRecord,
        Book.mk completeRecord]).total
      = (BooksOkBody.mk "dune" 2 [Book.mk completeRecord,
          Book.mk completeRecord]).books.length ∧
    ∀ b ∈ (BooksOkBody.mk "dune" 2 [Book.mk completeRecord,
        Book.mk completeRecord]).books,
      hasEmptyInformation b.bookInformation = false :=
  booksHandler_ok_invariants "dune" "2"
    (pagesUpstream [[completeRecord], [completeRecord]]) 2
    (BooksOkBody.mk "dune" 2 [Book.mk completeRecord, Book.mk completeRecord])
    2 (by decide)

/-- C9: a request with an empty (hence also a missing) query
parameter, an empty limit parameter, a limit that does not parse as an
integer, or a negative parsed limit is answered with 400 and zero
upstream calls — the aggregator is never invoked. -/
theorem booksHandler_rejects_invalid (qp lp : String)
    (u : Nat → UpstreamResult) (fuel : Nat)
    (h : qp = "" ∨ lp = "" ∨ atoi lp = none ∨ ∃ l, atoi lp = some l ∧ l < 0) :
    ∃ msg, booksHandler qp lp u fuel
        = some (HandlerResponse.badRequest msg, 0) ∧
      (HandlerResponse.badRequest msg).status = 400 := by
  by_cases hq : qp = ""
  · exact ⟨"query is required", by simp [booksHandler, hq], rfl⟩
  · by_cases hl : lp = ""
    · exact ⟨"limit is required", by simp [booksHandler, hq, hl], rfl⟩
    · rcases h with h | h | h | ⟨l, ha, hneg⟩
      · exact absurd h hq
      · exact absurd h hl
      · exact ⟨"processing limit", by simp [booksHandler, hq, hl, h], rfl⟩
      · exact ⟨"limit cant be a negative number",
          by simp [booksHandler, hq, hl, ha, hneg], rfl⟩

/-- Witness for C9's theorem: `limit=-1` is rejected with 400 and no
upstream call. -/
theorem booksHandler_rejects_invalid_witness :
    ∃ msg, booksHandler "dune" "-1" emptyPageUpstream 0
        = some (HandlerResponse.badRequest msg, 0) ∧
      (HandlerResponse.badRequest msg).status = 400 :=
  booksHandler_rejects_invalid "dune" "-1" emptyPageUpstream 0
    (Or.inr (Or.inr (Or.inr ⟨-1, by decide, by decide⟩)))

/-- C10: called directly with a strictly negative limit, `getBooks`
returns the empty book list with no error and makes zero upstream
calls — the negative limit is neither clamped to 0 nor does it enter
the fetch loop. -/
theorem getBooks_negative_limit (q : String) (limit : Int)
    (u : Nat → UpstreamResult) (fuel : Nat) (h : limit < 0) :
    getBooks q limit u fuel = some (([], none), 0) := by
  have hm : maxLimit = 50 := rfl
  have h1 : ¬ limit > maxLimit := by omega
  have h2 : ¬ (limit = 0) := by omega
  simp only [getBooks, if_neg h1, if_neg h2]
  exact getBooksLoop_stop limit fuel u []
    (by simp only [List.length_nil, Nat.cast_zero]; omega)

/-- Witness for C10's theorem at limit -1. -/
theorem getBooks_negative_limit_witness :
    getBooks "dune" (-1) emptyPageUpstream 0 = some (([], none), 0) :=
  getBooks_negative_limit "dune" (-1) emptyPageUpstream 0 (by decide)

end GoogleBooks
